import Mathlib

/-!
Verification development for the workhive network-management tool.

The definitions below are shallow embeddings of the program's routines:

* `EncryptionUtil.*` embeds `nodejs/src/interfaces/wifi.interface.ts`
  (token format `iv:salt:tag:ciphertext`, base64 segments, structural
  `isEncrypted` check).  The AEAD cipher and the key-derivation function of
  Node's `crypto` module are external libraries; they enter as function
  parameters, and their correctness at the call sites enters as explicit
  hypotheses.  Node's lenient base64 decoder (`Buffer.from(s, 'base64')`,
  which ignores characters outside the alphabet and never throws) is
  embedded concretely as `b64Decode`.
* Byte strings are `List Nat` with values `< 256`; text is `String`.
-/

/-! ## JavaScript string primitives -/

/-- JS `String.prototype.split(sep)` for a single-character separator,
accumulator-style: `"".split(c) = [""]`, `"a:b".split(c) = ["a","b"]`. -/
def splitOnCharAux (sep : Char) : List Char → List Char → List (List Char)
  | [], acc => [acc.reverse]
  | c :: rest, acc =>
    if c = sep then acc.reverse :: splitOnCharAux sep rest []
    else splitOnCharAux sep rest (c :: acc)

/-- JS `s.split(sep)` for a one-character separator. -/
def splitOnChar (sep : Char) (s : List Char) : List (List Char) :=
  splitOnCharAux sep s []

/-- JS whitespace for `trim` purposes (the characters actually occurring in
the probed command outputs). -/
def isJsWs (c : Char) : Bool :=
  c = ' ' || c = '\t' || c = '\n' || c = '\r'

/-- JS `String.prototype.trim`. -/
def jsTrim (s : List Char) : List Char :=
  ((s.dropWhile isJsWs).reverse.dropWhile isJsWs).reverse

/-! ## Base64 (RFC 4648 alphabet), with Node's lenient decoder -/

/-- The base64 character for a sextet value. -/
def sextetChar (n : Nat) : Char :=
  if n < 26 then Char.ofNat (65 + n)
  else if n < 52 then Char.ofNat (97 + (n - 26))
  else if n < 62 then Char.ofNat (48 + (n - 52))
  else if n = 62 then '+'
  else '/'

/-- The sextet value of a base64 character; `none` for characters outside
the alphabet (Node's decoder simply skips those). -/
def charSextet (c : Char) : Option Nat :=
  let v := c.toNat
  if 65 ≤ v ∧ v ≤ 90 then some (v - 65)
  else if 97 ≤ v ∧ v ≤ 122 then some (26 + (v - 97))
  else if 48 ≤ v ∧ v ≤ 57 then some (52 + (v - 48))
  else if v = 43 then some 62
  else if v = 47 then some 63
  else none

/-- Base64 encoding of a byte list, three bytes to four characters, with
`=` padding (what `Buffer.prototype.toString('base64')` produces). -/
def b64EncodeBytes : List Nat → List Char
  | [] => []
  | [a] => [sextetChar (a / 4), sextetChar (a % 4 * 16), '=', '=']
  | [a, b] => [sextetChar (a / 4), sextetChar (a % 4 * 16 + b / 16),
               sextetChar (b % 16 * 4), '=']
  | a :: b :: c :: rest =>
      sextetChar (a / 4) :: sextetChar (a % 4 * 16 + b / 16) ::
      sextetChar (b % 16 * 4 + c / 64) :: sextetChar (c % 64) ::
      b64EncodeBytes rest

/-- The sextet sequence underlying `b64EncodeBytes` (no characters). -/
def b64Sextets : List Nat → List Nat
  | [] => []
  | [a] => [a / 4, a % 4 * 16]
  | [a, b] => [a / 4, a % 4 * 16 + b / 16, b % 16 * 4]
  | a :: b :: c :: rest =>
      a / 4 :: (a % 4 * 16 + b / 16) :: (b % 16 * 4 + c / 64) :: c % 64 ::
      b64Sextets rest

/-- Reassemble bytes from sextets, four sextets to three bytes; leftover
sextets yield the bytes they fully determine (Node's behaviour). -/
def b64DecodeSextets : List Nat → List Nat
  | s1 :: s2 :: s3 :: s4 :: rest =>
      (s1 * 4 + s2 / 16) :: (s2 % 16 * 16 + s3 / 4) :: (s3 % 4 * 64 + s4) ::
      b64DecodeSextets rest
  | [s1, s2, s3] => [s1 * 4 + s2 / 16, s2 % 16 * 16 + s3 / 4]
  | [s1, s2] => [s1 * 4 + s2 / 16]
  | _ => []

/-- Node's lenient base64 decoder (`Buffer.from(s, 'base64')`): characters
outside the alphabet — including the `=` padding — are skipped, and the
remaining sextets are reassembled.  It never throws. -/
def b64Decode (s : List Char) : List Nat :=
  b64DecodeSextets (s.filterMap charSextet)

/-! ### Base64 facts -/

theorem charSextet_sextetChar : ∀ n, n < 64 → charSextet (sextetChar n) = some n := by
  decide

theorem sextetChar_ne_colon : ∀ n, n < 64 → sextetChar n ≠ ':' := by
  decide

theorem charSextet_eq_none : charSextet '=' = none := by decide

theorem b64EncodeBytes_no_colon (bs : List Nat) (h : ∀ b ∈ bs, b < 256) :
    ':' ∉ b64EncodeBytes bs := by
  induction bs using b64EncodeBytes.induct with
  | case1 => simp [b64EncodeBytes]
  | case2 a =>
    have ha : a < 256 := h a (by simp)
    simp only [b64EncodeBytes, List.mem_cons, List.not_mem_nil, or_false]
    push_neg
    refine ⟨?_, ?_, by decide, by decide⟩
    · exact fun hc => sextetChar_ne_colon _ (by omega) hc.symm
    · exact fun hc => sextetChar_ne_colon _ (by omega) hc.symm
  | case3 a b =>
    have ha : a < 256 := h a (by simp)
    have hb : b < 256 := h b (by simp)
    simp only [b64EncodeBytes, List.mem_cons, List.not_mem_nil, or_false]
    push_neg
    refine ⟨?_, ?_, ?_, by decide⟩
    · exact fun hc => sextetChar_ne_colon _ (by omega) hc.symm
    · exact fun hc => sextetChar_ne_colon _ (by omega) hc.symm
    · exact fun hc => sextetChar_ne_colon _ (by omega) hc.symm
  | case4 a b c rest ih =>
    have ha : a < 256 := h a (by simp)
    have hb : b < 256 := h b (by simp)
    have hc : c < 256 := h c (by simp)
    have hrest : ∀ x ∈ rest, x < 256 := fun x hx => h x (by simp [hx])
    simp only [b64EncodeBytes, List.mem_cons]
    push_neg
    refine ⟨?_, ?_, ?_, ?_, ih hrest⟩
    · exact fun hco => sextetChar_ne_colon _ (by omega) hco.symm
    · exact fun hco => sextetChar_ne_colon _ (by omega) hco.symm
    · exact fun hco => sextetChar_ne_colon _ (by omega) hco.symm
    · exact fun hco => sextetChar_ne_colon _ (by omega) hco.symm

theorem filterMap_b64EncodeBytes (bs : List Nat) (h : ∀ b ∈ bs, b < 256) :
    (b64EncodeBytes bs).filterMap charSextet = b64Sextets bs := by
  induction bs using b64EncodeBytes.induct with
  | case1 => simp [b64EncodeBytes, b64Sextets]
  | case2 a =>
    have ha : a < 256 := h a (by simp)
    simp [b64EncodeBytes, b64Sextets, List.filterMap_cons, charSextet_eq_none,
      charSextet_sextetChar (a / 4) (by omega),
      charSextet_sextetChar (a % 4 * 16) (by omega)]
  | case3 a b =>
    have ha : a < 256 := h a (by simp)
    have hb : b < 256 := h b (by simp)
    simp [b64EncodeBytes, b64Sextets, List.filterMap_cons, charSextet_eq_none,
      charSextet_sextetChar (a / 4) (by omega),
      charSextet_sextetChar (a % 4 * 16 + b / 16) (by omega),
      charSextet_sextetChar (b % 16 * 4) (by omega)]
  | case4 a b c rest ih =>
    have ha : a < 256 := h a (by simp)
    have hb : b < 256 := h b (by simp)
    have hc : c < 256 := h c (by simp)
    have hrest : ∀ x ∈ rest, x < 256 := fun x hx => h x (by simp [hx])
    simp [b64EncodeBytes, b64Sextets, List.filterMap_cons,
      charSextet_sextetChar (a / 4) (by omega),
      charSextet_sextetChar (a % 4 * 16 + b / 16) (by omega),
      charSextet_sextetChar (b % 16 * 4 + c / 64) (by omega),
      charSextet_sextetChar (c % 64) (by omega), ih hrest]

theorem b64DecodeSextets_b64Sextets (bs : List Nat) (h : ∀ b ∈ bs, b < 256) :
    b64DecodeSextets (b64Sextets bs) = bs := by
  induction bs using b64Sextets.induct with
  | case1 => simp [b64Sextets, b64DecodeSextets]
  | case2 a =>
    have ha : a < 256 := h a (by simp)
    simp only [b64Sextets, b64DecodeSextets]
    congr 1
    omega
  | case3 a b =>
    have ha : a < 256 := h a (by simp)
    have hb : b < 256 := h b (by simp)
    simp only [b64Sextets, b64DecodeSextets]
    congr 1
    · omega
    · congr 1
      omega
  | case4 a b c rest ih =>
    have ha : a < 256 := h a (by simp)
    have hb : b < 256 := h b (by simp)
    have hc : c < 256 := h c (by simp)
    have hrest : ∀ x ∈ rest, x < 256 := fun x hx => h x (by simp [hx])
    simp only [b64Sextets, b64DecodeSextets, ih hrest]
    congr 1
    · omega
    · congr 1
      · omega
      · congr 1
        omega

theorem b64_roundtrip (bs : List Nat) (h : ∀ b ∈ bs, b < 256) :
    b64Decode (b64EncodeBytes bs) = bs := by
  unfold b64Decode
  rw [filterMap_b64EncodeBytes bs h, b64DecodeSextets_b64Sextets bs h]

/-! ### Split facts -/

theorem splitOnCharAux_no_sep (sep : Char) (seg : List Char) (h : sep ∉ seg) :
    ∀ acc, splitOnCharAux sep seg acc = [acc.reverse ++ seg] := by
  induction seg with
  | nil => intro acc; simp [splitOnCharAux]
  | cons c cs ih =>
    intro acc
    have hc : ¬ c = sep := fun hh => h (hh ▸ List.mem_cons_self c cs)
    have hcs : sep ∉ cs := fun hh => h (List.mem_cons_of_mem c hh)
    simp [splitOnCharAux, hc, ih hcs (c :: acc)]

theorem splitOnCharAux_append_sep (sep : Char) (seg rest : List Char)
    (h : sep ∉ seg) :
    ∀ acc, splitOnCharAux sep (seg ++ sep :: rest) acc =
      (acc.reverse ++ seg) :: splitOnCharAux sep rest [] := by
  induction seg with
  | nil => intro acc; simp [splitOnCharAux]
  | cons c cs ih =>
    intro acc
    have hc : ¬ c = sep := fun hh => h (hh ▸ List.mem_cons_self c cs)
    have hcs : sep ∉ cs := fun hh => h (List.mem_cons_of_mem c hh)
    simp [splitOnCharAux, hc, ih hcs (c :: acc)]

theorem splitOnChar_four (p0 p1 p2 p3 : List Char)
    (h0 : ':' ∉ p0) (h1 : ':' ∉ p1) (h2 : ':' ∉ p2) (h3 : ':' ∉ p3) :
    splitOnChar ':' (p0 ++ ':' :: (p1 ++ ':' :: (p2 ++ ':' :: p3))) =
      [p0, p1, p2, p3] := by
  unfold splitOnChar
  rw [splitOnCharAux_append_sep ':' p0 _ h0, splitOnCharAux_append_sep ':' p1 _ h1,
    splitOnCharAux_append_sep ':' p2 _ h2, splitOnCharAux_no_sep ':' p3 h3]
  simp

/-! ## The Credential Cipher (`EncryptionUtil`) -/

/-- `EncryptionUtil.encrypt` from `wifi.interface.ts`: derive a one-time
key with the KDF over (masterKey, salt), run the AEAD cipher (returning
ciphertext bytes and authentication tag), and colon-join the base64 of
iv, salt, tag and ciphertext.  `kdf` embeds `crypto.pbkdf2Sync` and
`aeadEnc` embeds the aes-256-gcm cipher of Node's `crypto`; the fresh
random `salt` and `iv` drawn by the source are parameters here. -/
def EncryptionUtil.encrypt (kdf : List Nat → List Nat → List Nat)
    (aeadEnc : List Nat → List Nat → String → List Nat × List Nat)
    (masterKey salt iv : List Nat) (text : String) : String :=
  let key := kdf masterKey salt
  let ct := aeadEnc key iv text
  String.mk (b64EncodeBytes iv) ++ ":" ++ String.mk (b64EncodeBytes salt) ++ ":" ++
    String.mk (b64EncodeBytes ct.2) ++ ":" ++ String.mk (b64EncodeBytes ct.1)

/-- `EncryptionUtil.decrypt`: split on `:`; anything but exactly four
segments throws (`none` here); otherwise base64-decode the segments,
re-derive the key from the recovered salt, and run the AEAD decryption
(`aeadDec`, embedding createDecipheriv + setAuthTag + final; it returns
`none` on authentication failure). -/
def EncryptionUtil.decrypt (kdf : List Nat → List Nat → List Nat)
    (aeadDec : List Nat → List Nat → List Nat → List Nat → Option String)
    (masterKey : List Nat) (encryptedText : String) : Option String :=
  match splitOnChar ':' encryptedText.data with
  | [p0, p1, p2, p3] =>
    let iv := b64Decode p0
    let salt := b64Decode p1
    let tag := b64Decode p2
    let ciphertext := b64Decode p3
    let key := kdf masterKey salt
    aeadDec key iv ciphertext tag
  | _ => none

/-- `EncryptionUtil.isEncrypted`: exactly four colon-separated segments;
the source then tries `Buffer.from(part, 'base64')` on the first three
segments inside a try/catch, but that decoder is total, so the catch arm
is unreachable and only the segment count decides. -/
def EncryptionUtil.isEncrypted (text : String) : Bool :=
  let parts := splitOnChar ':' text.data
  if parts.length ≠ 4 then false
  else
    let _ := b64Decode (parts.getD 0 [])
    let _ := b64Decode (parts.getD 1 [])
    let _ := b64Decode (parts.getD 2 [])
    true

/-- The spec's characterisation of `looksEncrypted`, stated as written
("exactly four colon-separated segments, each of which is valid base64"),
for comparison with the source's `EncryptionUtil.isEncrypted`. -/
def isEncryptedSpec (text : String) : Bool :=
  let parts := splitOnChar ':' text.data
  decide (parts.length = 4) && parts.all (fun seg => seg.all (fun c => (charSextet c).isSome || c = '='))


theorem colon_data : ":".data = [':'] := rfl

theorem encrypt_data (kdf : List Nat → List Nat → List Nat)
    (aeadEnc : List Nat → List Nat → String → List Nat × List Nat)
    (masterKey salt iv : List Nat) (text : String) :
    (EncryptionUtil.encrypt kdf aeadEnc masterKey salt iv text).data =
      b64EncodeBytes iv ++ ':' ::
        (b64EncodeBytes salt ++ ':' ::
          (b64EncodeBytes (aeadEnc (kdf masterKey salt) iv text).2 ++ ':' ::
            b64EncodeBytes (aeadEnc (kdf masterKey salt) iv text).1)) := by
  simp [EncryptionUtil.encrypt, String.data_append, colon_data, List.append_assoc]

/-- C1: the `decrypt(encrypt(x)) = x` round trip.  `hdec` is the
correctness of Node's aes-256-gcm at the values this call produces (an
external-library contract); the byte-range hypotheses say the cipher and
the random draws produce bytes. -/
theorem c1_decrypt_encrypt_roundtrip (kdf : List Nat → List Nat → List Nat)
    (aeadEnc : List Nat → List Nat → String → List Nat × List Nat)
    (aeadDec : List Nat → List Nat → List Nat → List Nat → Option String)
    (masterKey salt iv : List Nat) (x : String)
    (hsalt : ∀ b ∈ salt, b < 256) (hiv : ∀ b ∈ iv, b < 256)
    (hct : ∀ b ∈ (aeadEnc (kdf masterKey salt) iv x).1, b < 256)
    (htag : ∀ b ∈ (aeadEnc (kdf masterKey salt) iv x).2, b < 256)
    (hdec : aeadDec (kdf masterKey salt) iv (aeadEnc (kdf masterKey salt) iv x).1
      (aeadEnc (kdf masterKey salt) iv x).2 = some x) :
    EncryptionUtil.decrypt kdf aeadDec masterKey
      (EncryptionUtil.encrypt kdf aeadEnc masterKey salt iv x) = some x := by
  unfold EncryptionUtil.decrypt
  rw [encrypt_data, splitOnChar_four _ _ _ _
    (b64EncodeBytes_no_colon iv hiv) (b64EncodeBytes_no_colon salt hsalt)
    (b64EncodeBytes_no_colon _ htag) (b64EncodeBytes_no_colon _ hct)]
  simp only [b64_roundtrip iv hiv, b64_roundtrip salt hsalt,
    b64_roundtrip _ htag, b64_roundtrip _ hct]
  exact hdec

/-- A concrete stand-in for `crypto.pbkdf2Sync` used in witnesses. -/
def kdf0 : List Nat → List Nat → List Nat := fun _ _ => [9]

/-- A concrete stand-in for the aes-256-gcm encryption used in witnesses. -/
def aeadEnc0 : List Nat → List Nat → String → List Nat × List Nat :=
  fun _ _ _ => ([1, 2, 3], [4])

/-- A concrete stand-in for the aes-256-gcm decryption used in witnesses;
it authenticates exactly the output of `aeadEnc0` under `kdf0`. -/
def aeadDec0 : List Nat → List Nat → List Nat → List Nat → Option String :=
  fun key iv ct tag =>
    if key = [9] ∧ iv = [6] ∧ ct = [1, 2, 3] ∧ tag = [4] then some "hunter:2" else none

/-- Witness for C1 at a concrete cipher, key material and a plaintext
containing a colon. -/
theorem c1_decrypt_encrypt_roundtrip_witness :
    EncryptionUtil.decrypt kdf0 aeadDec0 [7]
      (EncryptionUtil.encrypt kdf0 aeadEnc0 [7] [5] [6] "hunter:2") = some "hunter:2" :=
  c1_decrypt_encrypt_roundtrip kdf0 aeadEnc0 aeadDec0 [7] [5] [6] "hunter:2"
    (by decide) (by decide) (by decide) (by decide) (by decide)

/-- C7, counterexample to the claim as stated: `"!:!:!:!"` has four
colon-separated segments none of which is valid base64, yet
`isEncrypted` accepts it — the base64-validity clause of the claim does
not hold, because Node's lenient decoder never fails. -/
theorem c7_counterexample :
    EncryptionUtil.isEncrypted "!:!:!:!" = true ∧ isEncryptedSpec "!:!:!:!" = false := by
  decide

/-- C7 (amended): `isEncrypted` returns true exactly when the input has
four colon-separated segments (the attempted base64 decoding never
fails); consequently `isEncrypted (encrypt x)` is true whenever the
cipher produced bytes, and ordinary plaintext without that shape is
rejected. -/
theorem c7_isEncrypted_amended :
    (∀ t : String,
      EncryptionUtil.isEncrypted t = decide ((splitOnChar ':' t.data).length = 4)) ∧
    (∀ (kdf : List Nat → List Nat → List Nat)
      (aeadEnc : List Nat → List Nat → String → List Nat × List Nat)
      (masterKey salt iv : List Nat) (x : String),
      (∀ b ∈ salt, b < 256) → (∀ b ∈ iv, b < 256) →
      (∀ b ∈ (aeadEnc (kdf masterKey salt) iv x).1, b < 256) →
      (∀ b ∈ (aeadEnc (kdf masterKey salt) iv x).2, b < 256) →
      EncryptionUtil.isEncrypted (EncryptionUtil.encrypt kdf aeadEnc masterKey salt iv x) = true) ∧
    EncryptionUtil.isEncrypted "plain text" = false := by
  refine ⟨?_, ?_, by decide⟩
  · intro t
    unfold EncryptionUtil.isEncrypted
    by_cases h : (splitOnChar ':' t.data).length = 4 <;> simp [h]
  · intro kdf aeadEnc masterKey salt iv x hsalt hiv hct htag
    unfold EncryptionUtil.isEncrypted
    rw [encrypt_data, splitOnChar_four _ _ _ _
      (b64EncodeBytes_no_colon iv hiv) (b64EncodeBytes_no_colon salt hsalt)
      (b64EncodeBytes_no_colon _ htag) (b64EncodeBytes_no_colon _ hct)]
    simp

/-- Witness for C7's amended theorem at a concrete encryption. -/
theorem c7_isEncrypted_amended_witness :
    EncryptionUtil.isEncrypted
      (EncryptionUtil.encrypt kdf0 aeadEnc0 [7] [5] [6] "pw") = true :=
  c7_isEncrypted_amended.2.1 kdf0 aeadEnc0 [7] [5] [6] "pw"
    (by decide) (by decide) (by decide) (by decide)

/-! ## The Configuration Store (`config.util.js`)

`NetworkConfig` carries the fields `deduplicateConfigs` and
`saveCurrentConfig` actually read; `createdDate` is the profile's
creation time (the source stores an ISO string and compares
`new Date(...)` values; we model the timeline as `Nat`). -/

structure NetworkConfig where
  ssid : String
  mode : String
  password : Option String := none
  createdDate : Nat := 0
  lastUsed : Nat := 0
  deriving DecidableEq, Repr

/-- The grouping key `` `${config.ssid}:${config.mode}` `` used by
`deduplicateConfigs`. -/
def dedupKey (c : NetworkConfig) : String :=
  c.ssid ++ ":" ++ c.mode

/-- JS `Map.prototype.get` over an association list. -/
def alookup (k : String) : List (String × α) → Option α
  | [] => none
  | (k', v) :: rest => if k' = k then some v else alookup k rest

/-- JS `Map.prototype.set` over an association list. -/
def aset (k : String) (v : α) : List (String × α) → List (String × α)
  | [] => [(k, v)]
  | (k', v') :: rest => if k' = k then (k, v) :: rest else (k', v') :: aset k v rest

theorem alookup_aset_self (k : String) (v : α) (m : List (String × α)) :
    alookup k (aset k v m) = some v := by
  induction m with
  | nil => simp [alookup, aset]
  | cons e rest ih =>
    by_cases h : e.1 = k
    · simp [alookup, aset, h]
    · simp [alookup, aset, h, ih]

theorem alookup_aset_ne (k k' : String) (hne : k' ≠ k) (v : α)
    (m : List (String × α)) : alookup k (aset k' v m) = alookup k m := by
  induction m with
  | nil => simp [alookup, aset, hne]
  | cons e rest ih =>
    obtain ⟨a, b⟩ := e
    by_cases h : a = k'
    · subst h; simp [alookup, aset, hne]
    · by_cases h2 : a = k <;> simp [alookup, aset, h, h2, ih, Ne.symm hne]

/-- First pass of `deduplicateConfigs`: fold the listed configs into the
`uniqueConfigs` map, keeping, per key, the entry with the strictly
greater `createdDate` (`<` — an equal date never replaces the incumbent). -/
def keeperFold : List (String × NetworkConfig) →
    List (String × (String × NetworkConfig)) → List (String × (String × NetworkConfig))
  | [], m => m
  | e :: rest, m =>
    let key := dedupKey e.2
    let m' := match alookup key m with
      | none => aset key e m
      | some keeper =>
        if keeper.2.createdDate < e.2.createdDate then aset key e m else m
    keeperFold rest m'

/-- `ConfigManager.deduplicateConfigs`: build the keeper map, then delete
every listed config whose id differs from its key's keeper; the returned
list is the store that survives (listing order preserved, as files are
only removed). -/
def ConfigManager.deduplicateConfigs (configs : List (String × NetworkConfig)) :
    List (String × NetworkConfig) :=
  let keepers := keeperFold configs []
  configs.filter fun e =>
    match alookup (dedupKey e.2) keepers with
    | some keeper => keeper.1 == e.1
    | none => true

/-- One step of the keeper choice, as a fold over a single key's group. -/
def keepNewer (b : Option (String × NetworkConfig)) (e : String × NetworkConfig) :
    Option (String × NetworkConfig) :=
  match b with
  | none => some e
  | some keeper =>
    if keeper.2.createdDate < e.2.createdDate then some e else some keeper

theorem alookup_keeperFold (l : List (String × NetworkConfig)) (k : String) :
    ∀ m, alookup k (keeperFold l m) =
      (l.filter fun e => dedupKey e.2 == k).foldl keepNewer (alookup k m) := by
  induction l with
  | nil => intro m; simp [keeperFold]
  | cons e rest ih =>
    intro m
    by_cases hk : dedupKey e.2 = k
    · have hb : (fun x : String × NetworkConfig => dedupKey x.2 == k) e = true := by
        simpa using beq_iff_eq.mpr hk
      rw [List.filter_cons_of_pos (p := fun x : String × NetworkConfig => dedupKey x.2 == k) hb,
        List.foldl_cons]
      show alookup k (keeperFold rest _) = _
      rw [ih]
      congr 1
      subst hk
      cases hm : alookup (dedupKey e.2) m with
      | none => simp [hm, keepNewer, alookup_aset_self]
      | some keeper =>
        by_cases hlt : keeper.2.createdDate < e.2.createdDate
        · simp [hm, keepNewer, hlt, alookup_aset_self]
        · simp [hm, keepNewer, hlt]
    · have hb : ¬ (fun x : String × NetworkConfig => dedupKey x.2 == k) e = true := by
        simp [hk]
      rw [List.filter_cons_of_neg (p := fun x : String × NetworkConfig => dedupKey x.2 == k) hb]
      show alookup k (keeperFold rest _) = _
      rw [ih]
      congr 1
      cases hm : alookup (dedupKey e.2) m with
      | none => rw [alookup_aset_ne k _ hk]
      | some keeper =>
        by_cases hlt : keeper.2.createdDate < e.2.createdDate
        · simp [hlt, alookup_aset_ne k _ hk]
        · simp [hlt]

theorem foldl_keepNewer_spec (l : List (String × NetworkConfig)) :
    ∀ b0, ∃ b, l.foldl keepNewer (some b0) = some b ∧ (b = b0 ∨ b ∈ l) ∧
      b0.2.createdDate ≤ b.2.createdDate ∧
      ∀ e ∈ l, e.2.createdDate ≤ b.2.createdDate := by
  induction l with
  | nil => intro b0; exact ⟨b0, rfl, Or.inl rfl, le_refl _, by simp⟩
  | cons e rest ih =>
    intro b0
    by_cases hlt : b0.2.createdDate < e.2.createdDate
    · obtain ⟨b, hfold, hmem, hle, hall⟩ := ih e
      refine ⟨b, ?_, ?_, ?_, ?_⟩
      · simpa [keepNewer, hlt] using hfold
      · rcases hmem with h | h
        · exact Or.inr (h ▸ List.mem_cons_self e rest)
        · exact Or.inr (List.mem_cons_of_mem e h)
      · omega
      · intro x hx
        rcases List.mem_cons.mp hx with h | h
        · subst h; exact hle
        · exact hall x h
    · obtain ⟨b, hfold, hmem, hle, hall⟩ := ih b0
      refine ⟨b, ?_, ?_, hle, ?_⟩
      · simpa [keepNewer, hlt] using hfold
      · rcases hmem with h | h
        · exact Or.inl h
        · exact Or.inr (List.mem_cons_of_mem e h)
      · intro x hx
        rcases List.mem_cons.mp hx with h | h
        · subst h; omega
        · exact hall x h

theorem foldl_keepNewer_tie (l : List (String × NetworkConfig)) :
    ∀ b0, (∀ e ∈ l, ¬ b0.2.createdDate < e.2.createdDate) →
      l.foldl keepNewer (some b0) = some b0 := by
  induction l with
  | nil => intro b0 _; rfl
  | cons e rest ih =>
    intro b0 h
    have he : ¬ b0.2.createdDate < e.2.createdDate := h e (List.mem_cons_self e rest)
    have : List.foldl keepNewer (keepNewer (some b0) e) rest = some b0 := by
      simp only [keepNewer, if_neg he]
      exact ih b0 (fun x hx => h x (List.mem_cons_of_mem e hx))
    simpa using this

theorem filter_fst_eq_of_nodup (g : List (String × NetworkConfig)) (b : String × NetworkConfig)
    (hnd : (g.map Prod.fst).Nodup) (hb : b ∈ g) :
    g.filter (fun e => b.1 == e.1) = [b] := by
  induction g with
  | nil => cases hb
  | cons e rest ih =>
    have hnd' : (rest.map Prod.fst).Nodup := (List.nodup_cons.mp hnd).2
    have hhead : e.1 ∉ rest.map Prod.fst := (List.nodup_cons.mp hnd).1
    rcases List.mem_cons.mp hb with h | h
    · subst h
      have : rest.filter (fun e => b.1 == e.1) = [] := by
        refine List.filter_eq_nil_iff.mpr ?_
        intro x hx hbeq
        exact hhead (beq_iff_eq.mp hbeq ▸ List.mem_map_of_mem Prod.fst hx)
      simp [List.filter_cons, this]
    · have hne : ¬ (b.1 == e.1) = true := by
        intro hbeq
        exact hhead (beq_iff_eq.mp hbeq ▸ List.mem_map_of_mem Prod.fst h)
      simp [List.filter_cons, hne, ih hnd' h]

theorem mode_suffix_clash (a b : List Char)
    (h : a ++ (':' :: ['c','l','i','e','n','t']) = b ++ (':' :: ['h','o','t','s','p','o','t'])) :
    False := by
  have h2 := congrArg List.reverse h
  simp only [List.reverse_append] at h2
  have e1 : (':' :: ['c','l','i','e','n','t'] : List Char).reverse =
      ['t','n','e','i','l','c',':'] := rfl
  have e2 : (':' :: ['h','o','t','s','p','o','t'] : List Char).reverse =
      ['t','o','p','s','t','o','h',':'] := rfl
  rw [e1, e2] at h2
  simp only [List.cons_append] at h2
  obtain ⟨-, h3⟩ := List.cons.inj h2
  obtain ⟨h4, -⟩ := List.cons.inj h3
  exact absurd h4 (by decide)

theorem string_append_cancel_right (s1 s2 t : String) (h : s1 ++ t = s2 ++ t) :
    s1 = s2 := by
  apply String.ext
  have hd := congrArg String.data h
  simp only [String.data_append] at hd
  exact List.append_cancel_right hd

/-- For the two modes the data model admits, the string key
`` `${ssid}:${mode}` `` determines `(ssid, mode)`. -/
theorem dedupKey_inj (c : NetworkConfig) (ssid mode : String)
    (hc : c.mode = "client" ∨ c.mode = "hotspot")
    (hm : mode = "client" ∨ mode = "hotspot") :
    dedupKey c = ssid ++ ":" ++ mode ↔ (c.ssid = ssid ∧ c.mode = mode) := by
  constructor
  · intro h
    unfold dedupKey at h
    rcases hc with hc | hc <;> rcases hm with hm | hm <;> rw [hc, hm] at h ⊢
    · exact ⟨string_append_cancel_right _ _ ":" (string_append_cancel_right _ _ "client" h), rfl⟩
    · have hd := congrArg String.data h
      simp only [String.data_append, List.append_assoc, List.singleton_append] at hd
      exact (mode_suffix_clash _ _ hd).elim
    · have hd := congrArg String.data h
      simp only [String.data_append, List.append_assoc, List.singleton_append] at hd
      exact (mode_suffix_clash _ _ hd.symm).elim
    · exact ⟨string_append_cancel_right _ _ ":" (string_append_cancel_right _ _ "hotspot" h), rfl⟩
  · rintro ⟨h1, h2⟩
    rw [dedupKey, h1, h2]

/-- The spec's view of a deduplication group: the listed profiles carrying
a given `(ssid, mode)` pair. -/
def pairGroup (ssid mode : String) (configs : List (String × NetworkConfig)) :
    List (String × NetworkConfig) :=
  configs.filter fun e => e.2.ssid == ssid && e.2.mode == mode

theorem pairPred_eq_keyPred (ssid mode : String) (hm : mode = "client" ∨ mode = "hotspot")
    (e : String × NetworkConfig) (he : e.2.mode = "client" ∨ e.2.mode = "hotspot") :
    (e.2.ssid == ssid && e.2.mode == mode) = (dedupKey e.2 == ssid ++ ":" ++ mode) := by
  rw [Bool.eq_iff_iff]
  simp only [Bool.and_eq_true, beq_iff_eq]
  exact (dedupKey_inj e.2 ssid mode he hm).symm

theorem pairGroup_eq_keyGroup (configs : List (String × NetworkConfig)) (ssid mode : String)
    (hmodes : ∀ e ∈ configs, e.2.mode = "client" ∨ e.2.mode = "hotspot")
    (hm : mode = "client" ∨ mode = "hotspot") :
    pairGroup ssid mode configs =
      configs.filter fun e => dedupKey e.2 == ssid ++ ":" ++ mode := by
  exact List.filter_congr fun e he => pairPred_eq_keyPred ssid mode hm e (hmodes e he)

/-- Pass two of `deduplicateConfigs`, restricted to one group: if the
keeper map holds `b` at the group's key and `b` belongs to the group,
then `b` is the group's sole survivor. -/
theorem dedup_group_survivor (configs : List (String × NetworkConfig)) (ssid mode : String)
    (hids : (configs.map Prod.fst).Nodup)
    (hmodes : ∀ e ∈ configs, e.2.mode = "client" ∨ e.2.mode = "hotspot")
    (hm : mode = "client" ∨ mode = "hotspot")
    (b : String × NetworkConfig)
    (hb : alookup (ssid ++ ":" ++ mode) (keeperFold configs []) = some b)
    (hbmem : b ∈ pairGroup ssid mode configs) :
    pairGroup ssid mode (ConfigManager.deduplicateConfigs configs) = [b] := by
  have hgnd : ((configs.filter fun e => dedupKey e.2 == ssid ++ ":" ++ mode).map Prod.fst).Nodup :=
    hids.sublist ((List.filter_sublist configs).map Prod.fst)
  have hbmem' : b ∈ configs.filter fun e => dedupKey e.2 == ssid ++ ":" ++ mode := by
    rw [← pairGroup_eq_keyGroup configs ssid mode hmodes hm]; exact hbmem
  have hSmode : ∀ e ∈ ConfigManager.deduplicateConfigs configs,
      e.2.mode = "client" ∨ e.2.mode = "hotspot" := by
    intro e he
    exact hmodes e (List.mem_of_mem_filter he)
  rw [pairGroup_eq_keyGroup _ ssid mode hSmode hm]
  show ((configs.filter _).filter fun e => dedupKey e.2 == ssid ++ ":" ++ mode) = [b]
  rw [List.filter_filter]
  have hstep : configs.filter
      (fun e => (dedupKey e.2 == ssid ++ ":" ++ mode) &&
        (match alookup (dedupKey e.2) (keeperFold configs []) with
          | some keeper => keeper.1 == e.1
          | none => true)) =
      configs.filter (fun e => (b.1 == e.1) && (dedupKey e.2 == ssid ++ ":" ++ mode)) := by
    refine List.filter_congr fun e _ => ?_
    by_cases hk : dedupKey e.2 = ssid ++ ":" ++ mode
    · rw [hk, hb]
      simp [Bool.and_comm]
    · have hkb : (dedupKey e.2 == ssid ++ ":" ++ mode) = false := by
        simp [hk]
      simp [hkb]
  rw [hstep, ← List.filter_filter]
  exact filter_fst_eq_of_nodup _ b hgnd hbmem'

/-- C5: for every store whose ids are distinct and whose modes are the two
the data model admits, deduplication leaves, in each nonempty
`(ssid, mode)` group, exactly one survivor, and the survivor carries the
group's maximum `createdDate`. -/
theorem c5_dedup_keeps_max (configs : List (String × NetworkConfig)) (ssid mode : String)
    (hids : (configs.map Prod.fst).Nodup)
    (hmodes : ∀ e ∈ configs, e.2.mode = "client" ∨ e.2.mode = "hotspot")
    (hm : mode = "client" ∨ mode = "hotspot")
    (hne : pairGroup ssid mode configs ≠ []) :
    ∃ b, b ∈ pairGroup ssid mode configs ∧
      pairGroup ssid mode (ConfigManager.deduplicateConfigs configs) = [b] ∧
      ∀ e ∈ pairGroup ssid mode configs, e.2.createdDate ≤ b.2.createdDate := by
  have hgrp := pairGroup_eq_keyGroup configs ssid mode hmodes hm
  cases hsplit : pairGroup ssid mode configs with
  | nil => exact absurd hsplit hne
  | cons e0 rest =>
    have hkey : configs.filter (fun e => dedupKey e.2 == ssid ++ ":" ++ mode) = e0 :: rest := by
      rw [← hgrp, hsplit]
    obtain ⟨b, hfold, hbmem, hble, hball⟩ := foldl_keepNewer_spec rest e0
    have hb : alookup (ssid ++ ":" ++ mode) (keeperFold configs []) = some b := by
      rw [alookup_keeperFold configs (ssid ++ ":" ++ mode) [], hkey]
      show List.foldl keepNewer (keepNewer (alookup (ssid ++ ":" ++ mode) []) e0) rest = some b
      exact hfold
    have hbmem0 : b ∈ e0 :: rest := by
      rcases hbmem with h | h
      · exact h ▸ List.mem_cons_self e0 rest
      · exact List.mem_cons_of_mem e0 h
    have hbmem2 : b ∈ pairGroup ssid mode configs := hsplit ▸ hbmem0
    refine ⟨b, hbmem0, dedup_group_survivor configs ssid mode hids hmodes hm b hb hbmem2, ?_⟩
    intro e he
    rcases List.mem_cons.mp he with h | h
    · subst h; exact hble
    · exact hball e h

/-- Witness for C5: two profiles share `("net", "client")`; the younger
(`createdDate 5`) survives alone, the older is deleted; the singleton
`("other", "client")` group is untouched. -/
theorem c5_dedup_keeps_max_witness :
    ∃ b, b ∈ pairGroup "net" "client"
        [("a", ⟨"net", "client", none, 3, 0⟩), ("b", ⟨"net", "client", none, 5, 0⟩),
         ("c", ⟨"other", "client", none, 1, 0⟩)] ∧
      pairGroup "net" "client" (ConfigManager.deduplicateConfigs
        [("a", ⟨"net", "client", none, 3, 0⟩), ("b", ⟨"net", "client", none, 5, 0⟩),
         ("c", ⟨"other", "client", none, 1, 0⟩)]) = [b] ∧
      ∀ e ∈ pairGroup "net" "client"
        [("a", ⟨"net", "client", none, 3, 0⟩), ("b", ⟨"net", "client", none, 5, 0⟩),
         ("c", ⟨"other", "client", none, 1, 0⟩)], e.2.createdDate ≤ b.2.createdDate :=
  c5_dedup_keeps_max
    [("a", ⟨"net", "client", none, 3, 0⟩), ("b", ⟨"net", "client", none, 5, 0⟩),
     ("c", ⟨"other", "client", none, 1, 0⟩)] "net" "client"
    (by decide) (by decide) (by decide) (by decide)

/-- C10: when every member of a `(ssid, mode)` group carries the same
`createdDate`, the strict `<` comparison never replaces the incumbent,
so the member listed first survives and every later member is deleted. -/
theorem c10_dedup_tie_keeps_first (configs : List (String × NetworkConfig))
    (ssid mode : String) (b : String × NetworkConfig) (rest : List (String × NetworkConfig))
    (hids : (configs.map Prod.fst).Nodup)
    (hmodes : ∀ e ∈ configs, e.2.mode = "client" ∨ e.2.mode = "hotspot")
    (hm : mode = "client" ∨ mode = "hotspot")
    (hsplit : pairGroup ssid mode configs = b :: rest)
    (htie : ∀ e ∈ rest, e.2.createdDate = b.2.createdDate) :
    pairGroup ssid mode (ConfigManager.deduplicateConfigs configs) = [b] := by
  have hgrp := pairGroup_eq_keyGroup configs ssid mode hmodes hm
  have hkey : configs.filter (fun e => dedupKey e.2 == ssid ++ ":" ++ mode) = b :: rest := by
    rw [← hgrp, hsplit]
  have hb : alookup (ssid ++ ":" ++ mode) (keeperFold configs []) = some b := by
    rw [alookup_keeperFold configs (ssid ++ ":" ++ mode) [], hkey]
    show List.foldl keepNewer (keepNewer (alookup (ssid ++ ":" ++ mode) []) b) rest = some b
    exact foldl_keepNewer_tie rest b (fun e he => by rw [htie e he]; omega)
  have hbmem : b ∈ pairGroup ssid mode configs := by
    rw [hsplit]; exact List.mem_cons_self b rest
  exact dedup_group_survivor configs ssid mode hids hmodes hm b hb hbmem

/-- Witness for C10: three profiles share `("net", "hotspot")` with equal
`createdDate`; the first-listed (`id "a"`) survives alone. -/
theorem c10_dedup_tie_keeps_first_witness :
    pairGroup "net" "hotspot" (ConfigManager.deduplicateConfigs
      [("a", ⟨"net", "hotspot", none, 7, 0⟩), ("b", ⟨"net", "hotspot", none, 7, 0⟩),
       ("c", ⟨"net", "hotspot", none, 7, 0⟩)]) = [("a", ⟨"net", "hotspot", none, 7, 0⟩)] :=
  c10_dedup_tie_keeps_first
    [("a", ⟨"net", "hotspot", none, 7, 0⟩), ("b", ⟨"net", "hotspot", none, 7, 0⟩),
     ("c", ⟨"net", "hotspot", none, 7, 0⟩)] "net" "hotspot"
    ("a", ⟨"net", "hotspot", none, 7, 0⟩)
    [("b", ⟨"net", "hotspot", none, 7, 0⟩), ("c", ⟨"net", "hotspot", none, 7, 0⟩)]
    (by decide) (by decide) (by decide) (by decide) (by decide)

/-! ## Automatic id generation (`workhive.sh`)

The collision-resolving save path lives in the shell implementation:
`create_config_id` builds a base id (custom name, else `ssid_mode`,
sanitised to `[A-Za-z0-9_-]` by `tr -cd`), and `get_unique_config_id`
appends `_1`, `_2`, … while a file with the candidate id exists.  The
store is modelled as the list of existing config-file ids; `save_config`
writes a new file under the unique id. -/

/-- The `a-zA-Z0-9_-` class kept by `tr -cd` in `create_config_id`. -/
def isIdChar (c : Char) : Bool :=
  ('a' ≤ c && c ≤ 'z') || ('A' ≤ c && c ≤ 'Z') || ('0' ≤ c && c ≤ '9') ||
    c = '_' || c = '-'

/-- Bash `${s// /_}`. -/
def spacesToUnderscores (s : List Char) : List Char :=
  s.map fun c => if c = ' ' then '_' else c

/-- `create_config_id custom_name mode ssid` from `workhive.sh`. -/
def create_config_id (customName mode ssid : String) : String :=
  if customName ≠ "" then
    String.mk ((spacesToUnderscores customName.data).filter isIdChar)
  else
    String.mk ((spacesToUnderscores ssid.data ++ '_' :: mode.data).filter isIdChar)

/-- The `while [ -f … ]` loop of `get_unique_config_id`: starting from
the base id with `counter=1`, move to `` `${base_id}_${counter}` `` and
bump the counter while the current candidate is taken.  Structured with
explicit fuel; `none` means the fuel ran out. -/
def uniqueIdLoop (store : List String) (baseId : String) :
    String → Nat → Nat → Option String
  | _, _, 0 => none
  | cur, counter, fuel + 1 =>
    if cur ∈ store then
      uniqueIdLoop store baseId (baseId ++ "_" ++ toString counter) (counter + 1) fuel
    else some cur

/-- `get_unique_config_id` from `workhive.sh`. -/
def get_unique_config_id (store : List String) (baseId : String) : Option String :=
  uniqueIdLoop store baseId baseId 1 (store.length + 2)

/-- `save_config` from `workhive.sh`, restricted to the id bookkeeping:
build the base id, pick the unique id, create the config file under it
(the store grows by exactly that id). -/
def save_config (store : List String) (customName mode ssid : String) :
    Option (String × List String) :=
  let baseId := create_config_id customName mode ssid
  match get_unique_config_id store baseId with
  | some id => some (id, store ++ [id])
  | none => none

theorem uniqueIdLoop_not_mem (store : List String) (baseId : String) :
    ∀ fuel cur counter id, uniqueIdLoop store baseId cur counter fuel = some id →
      id ∉ store := by
  intro fuel
  induction fuel with
  | zero => intro cur counter id h; cases h
  | succ n ih =>
    intro cur counter id h
    by_cases hmem : cur ∈ store
    · exact ih _ _ id (by simpa [uniqueIdLoop, hmem] using h)
    · have : cur = id := by simpa [uniqueIdLoop, hmem] using h
      exact this ▸ hmem

/-- C3: saving under the caller-supplied name `"a"` three times produces
the ids `a`, `a_1`, `a_2`, and in general the id chosen by the
`_1`, `_2`, … collision scan is never one that already exists, so no
record is overwritten by automatic naming. -/
theorem c3_save_appends_suffix :
    save_config [] "a" "client" "x" = some ("a", ["a"]) ∧
    save_config ["a"] "a" "client" "x" = some ("a_1", ["a", "a_1"]) ∧
    save_config ["a", "a_1"] "a" "client" "x" = some ("a_2", ["a", "a_1", "a_2"]) ∧
    (∀ store customName mode ssid id store2,
      save_config store customName mode ssid = some (id, store2) →
        id ∉ store ∧ store2 = store ++ [id]) := by
  refine ⟨by decide, by decide, by decide, ?_⟩
  intro store customName mode ssid id store2 h
  simp only [save_config] at h
  cases hu : get_unique_config_id store (create_config_id customName mode ssid) with
  | none => rw [hu] at h; cases h
  | some i =>
    rw [hu] at h
    obtain ⟨rfl, rfl⟩ : i = id ∧ store ++ [i] = store2 := by
      simpa using h
    exact ⟨uniqueIdLoop_not_mem store _ _ _ _ _ hu, rfl⟩

/-- Witness for C3's general no-overwrite conjunct at a concrete store. -/
theorem c3_save_appends_suffix_witness :
    "a" ∉ ["z"] ∧ ["z"] ++ ["a"] = ["z"] ++ ["a"] := by
  have h := c3_save_appends_suffix.2.2.2 ["z"] "a" "client" "x" "a" (["z"] ++ ["a"])
    (by decide)
  exact ⟨h.1, rfl⟩

/-! ## The Tunnel Provisioner's address scan (`wireguard.service.ts`) -/

/-- JS `parseInt` on a decimal string (leading digits; `NaN` — here
`none` — when there are none). -/
def parseDec (s : List Char) : Option Nat :=
  let t := (jsTrim s).takeWhile fun c => c.isDigit
  if t = [] then none
  else some (t.foldl (fun acc c => acc * 10 + (c.toNat - 48)) 0)

/-- JS `Array.prototype.join(sep)` for a one-character separator. -/
def joinWith (sep : Char) : List (List Char) → List Char
  | [] => []
  | [x] => x
  | x :: xs => x ++ sep :: joinWith sep xs

/-- JS `String.prototype.includes`: `sub` occurs contiguously in `s`. -/
def jsIncludes (s sub : List Char) : Bool :=
  if sub.isPrefixOf s then true
  else
    match s with
    | [] => false
    | _ :: rest => jsIncludes rest sub

/-- One reachability probe of the scan: the candidate's last octet is
free when `ping -c 1 -W 1` fails (`probe i = none`, the catch branch) or
its trimmed stdout does not contain `"1 received"`. -/
def ipIsFree (probe : Nat → Option String) (i : Nat) : Bool :=
  match probe i with
  | none => true
  | some out => ! jsIncludes out.data "1 received".data

/-- `WireGuardService.getFreeIP`: split the base IP on `.`, rejoin the
first three octets, parse the fourth octet as the loop's start, and scan
`i = start, …, 254` for the first candidate that does not answer the
probe; exhaustion throws (`none`). -/
def WireGuardService.getFreeIP (probe : Nat → Option String)
    (baseIP : String) (subnet : Nat) : Option String :=
  let parts := splitOnChar '.' baseIP.data
  let base := joinWith '.' (parts.take 3)
  match parseDec (parts.getD 3 []) with
  | none => none
  | some start =>
    match (List.range' start (255 - start)).find? (fun i => ipIsFree probe i) with
    | some i =>
      some (String.mk (base ++ '.' :: (toString i).data ++ '/' :: (toString subnet).data))
    | none => none

/-- The address-allocation slice of `WireGuardService.setup`: take the
first allowedIPs block, split it on `/` into base IP and prefix
(`parseInt(...) || 24`), and run `getFreeIP`.  An empty allowedIPs list
makes `allowedIPs[0].split` throw, caught by `setup` (`none`). -/
def WireGuardService.setupFreeIP (probe : Nat → Option String)
    (allowedIPs : List String) : Option String :=
  match allowedIPs with
  | [] => none
  | ip0 :: _ =>
    let sp := splitOnChar '/' ip0.data
    let baseIP := String.mk (sp.getD 0 [])
    let subnet :=
      match parseDec (sp.getD 1 []) with
      | some n => if n = 0 then 24 else n
      | none => 24
    WireGuardService.getFreeIP probe baseIP subnet

theorem find_range'_first (p : Nat → Bool) :
    ∀ n s j, s ≤ j → j < s + n → p j = true →
      (∀ i, s ≤ i → i < j → p i = false) →
      (List.range' s n).find? p = some j := by
  intro n
  induction n with
  | zero => intro s j h1 h2; omega
  | succ n ih =>
    intro s j h1 h2 hj hbefore
    rw [List.range'_succ]
    by_cases hsj : s = j
    · subst hsj
      simp [List.find?_cons, hj]
    · have hps : p s = false := hbefore s (le_refl s) (by omega)
      rw [List.find?_cons, hps]
      exact ih (s + 1) j (by omega) (by omega) hj fun i ha hb => hbefore i (by omega) hb

theorem find_range'_none (p : Nat → Bool) (n s : Nat)
    (h : ∀ i, s ≤ i → i < s + n → p i = false) :
    (List.range' s n).find? p = none := by
  refine List.find?_eq_none.mpr fun i hi => ?_
  have := List.mem_range'_1.mp hi
  simp [h i this.1 this.2]

/-- A probe for counterexamples: candidates 1–5 answer the ping, every
other candidate (`.0` included) does not. -/
def probeOneToFive : Nat → Option String := fun i =>
  if 1 ≤ i ∧ i ≤ 5 then some "1 packets transmitted, 1 received, 0% packet loss"
  else some "1 packets transmitted, 0 received, 100% packet loss"

/-- C4, counterexample to the claim as stated: with allowedIPs
`10.0.0.0/24`, `.1`–`.5` answering and `.6` (and `.0`) silent, the scan
selects `10.0.0.0/24` — it starts at the block address `.0` as written,
not at the first host address `.1`, so it does not select `10.0.0.6/24`. -/
theorem c4_counterexample :
    WireGuardService.setupFreeIP probeOneToFive ["10.0.0.0/24"] = some "10.0.0.0/24" ∧
    WireGuardService.setupFreeIP probeOneToFive ["10.0.0.0/24"] ≠ some "10.0.0.6/24" := by
  constructor
  · decide
  · decide

/-- C4 (amended): allocation takes the first allowedIPs block and starts
probing at the address written in the block (for `10.0.0.0/24` that is
`.0`, the block address, not the first host address); the first
candidate not answering its single probe is selected, and exhausting
`.start`–`.254` with every candidate answering is a failure. -/
theorem c4_scan_from_block_address :
    (∀ (probe : Nat → Option String) (j : Nat), j < 255 →
      ipIsFree probe j = true → (∀ i, i < j → ipIsFree probe i = false) →
      WireGuardService.setupFreeIP probe ["10.0.0.0/24"] =
        some ("10.0.0." ++ toString j ++ "/24")) ∧
    (∀ probe : Nat → Option String, (∀ i, i < 255 → ipIsFree probe i = false) →
      WireGuardService.setupFreeIP probe ["10.0.0.0/24"] = none) := by
  constructor
  · intro probe j hj hfree hbefore
    have h0 : WireGuardService.setupFreeIP probe ["10.0.0.0/24"] =
        match (List.range' 0 255).find? (fun i => ipIsFree probe i) with
        | some i =>
          some (String.mk (['1','0','.','0','.','0'] ++ '.' :: (toString i).data ++
            '/' :: (toString 24).data))
        | none => none := rfl
    rw [h0, find_range'_first (fun i => ipIsFree probe i) 255 0 j (Nat.zero_le j)
      (by omega) hfree (fun i _ hb => hbefore i hb)]
    refine congrArg some (String.ext ?_)
    simp [String.data_append]
    decide
  · intro probe hall
    have h0 : WireGuardService.setupFreeIP probe ["10.0.0.0/24"] =
        match (List.range' 0 255).find? (fun i => ipIsFree probe i) with
        | some i =>
          some (String.mk (['1','0','.','0','.','0'] ++ '.' :: (toString i).data ++
            '/' :: (toString 24).data))
        | none => none := rfl
    rw [h0, find_range'_none (fun i => ipIsFree probe i) 255 0
      (fun i _ hb => hall i (by omega))]

/-- Witness for C4's amended theorem: `.0`–`.2` answer, `.3` is silent,
so `10.0.0.3/24` is selected. -/
theorem c4_scan_from_block_address_witness :
    WireGuardService.setupFreeIP
      (fun i => if i < 3 then some "1 packets transmitted, 1 received, 0% packet loss"
                else none) ["10.0.0.0/24"] =
      some ("10.0.0." ++ toString 3 ++ "/24") :=
  c4_scan_from_block_address.1
    (fun i => if i < 3 then some "1 packets transmitted, 1 received, 0% packet loss"
              else none) 3
    (by decide) (by decide) (by decide)

/-! ## The Export/Import Pipeline (`export-import.util.ts`)

`importNetworkConfigs` is embedded over an already-read input:
`none` stands for a file that could not be read or parsed
(`JSON.parse` threw), `some none` for a parsed envelope without a
`networks` array, and `some (some networks)` for the entry list.  The
store write (`configManager.saveConfig`) always succeeds here — the
per-entry catch exists only for store failures — so the function also
returns the list of persisted `(id, config)` pairs. -/

structure ImportResult where
  success : Bool
  imported : Nat
  errors : Option (List String)
  deriving DecidableEq, Repr

/-- The body of the per-entry loop: if the entry's password is truthy and
`isEncrypted`, try to decrypt; a decryption failure is only logged
(`console.error`) and the entry continues with its still-encrypted
password. -/
def importEntry (decrypt : String → Option String) (e : String × NetworkConfig) :
    String × NetworkConfig :=
  match e.2.password with
  | some p =>
    if p ≠ "" && EncryptionUtil.isEncrypted p then
      match decrypt p with
      | some d => (e.1, { e.2 with password := some d })
      | none => e
    else e
  | none => e

/-- The `for … of data.networks` loop, carrying `importedCount`, `errors`
and the persisted entries in order. -/
def importLoop (decrypt : String → Option String) :
    List (String × NetworkConfig) → Nat → List String → List (String × NetworkConfig) →
    Nat × List String × List (String × NetworkConfig)
  | [], imported, errors, saved => (imported, errors, saved)
  | e :: rest, imported, errors, saved =>
    importLoop decrypt rest (imported + 1) errors (saved ++ [importEntry decrypt e])

/-- `ExportImportManager.importNetworkConfigs`. -/
def ExportImportManager.importNetworkConfigs (decrypt : String → Option String)
    (input : Option (Option (List (String × NetworkConfig)))) :
    ImportResult × List (String × NetworkConfig) :=
  match input with
  | none =>
    ({ success := false, imported := 0,
       errors := some ["Failed to read or parse export file"] }, [])
  | some none =>
    ({ success := false, imported := 0,
       errors := some ["Invalid export file format: networks array missing"] }, [])
  | some (some networks) =>
    let r := importLoop decrypt networks 0 [] []
    ({ success := decide (0 < r.1), imported := r.1,
       errors := if 0 < r.2.1.length then some r.2.1 else none }, r.2.2)

theorem importLoop_spec (decrypt : String → Option String)
    (l : List (String × NetworkConfig)) :
    ∀ n errs saved, importLoop decrypt l n errs saved =
      (n + l.length, errs, saved ++ l.map (importEntry decrypt)) := by
  induction l with
  | nil => intro n errs saved; simp [importLoop]
  | cons e rest ih =>
    intro n errs saved
    rw [importLoop, ih]
    simp
    omega

/-- C2, counterexample to the claim as stated: an entry whose password
looks encrypted but fails to decrypt is persisted unchanged and counted,
yet the returned `errors` field is `none` — the decryption failure is
*not* recorded in the errors list (it is only logged). -/
theorem c2_counterexample :
    EncryptionUtil.isEncrypted "AA==:AA==:AA==:AA==" = true ∧
    (fun _ : String => (none : Option String)) "AA==:AA==:AA==:AA==" = none ∧
    ExportImportManager.importNetworkConfigs (fun _ => none)
      (some (some [("n1", ⟨"net", "client", some "AA==:AA==:AA==:AA==", 1, 0⟩)])) =
      ({ success := true, imported := 1, errors := none },
       [("n1", ⟨"net", "client", some "AA==:AA==:AA==:AA==", 1, 0⟩)]) := by
  refine ⟨by decide, rfl, ?_⟩
  decide

/-- C2 (amended): a decryption failure is only logged — it is not
recorded in the returned errors list — and the entry is still persisted
with its still-encrypted password and counted as imported; other entries
are unaffected (each is persisted, transformed independently); an
unreadable/unparsable envelope or one without a `networks` array is a
hard failure with zero entries imported. -/
theorem c2_import_partial_failure_amended :
    (∀ decrypt : String → Option String,
      ExportImportManager.importNetworkConfigs decrypt none =
        ({ success := false, imported := 0,
           errors := some ["Failed to read or parse export file"] }, [])) ∧
    (∀ decrypt : String → Option String,
      ExportImportManager.importNetworkConfigs decrypt (some none) =
        ({ success := false, imported := 0,
           errors := some ["Invalid export file format: networks array missing"] }, [])) ∧
    (∀ (decrypt : String → Option String) (networks : List (String × NetworkConfig)),
      ExportImportManager.importNetworkConfigs decrypt (some (some networks)) =
        ({ success := decide (0 < networks.length), imported := networks.length,
           errors := none }, networks.map (importEntry decrypt))) ∧
    (∀ (decrypt : String → Option String) (id : String) (cfg : NetworkConfig) (p : String),
      cfg.password = some p → p ≠ "" → EncryptionUtil.isEncrypted p = true →
      decrypt p = none → importEntry decrypt (id, cfg) = (id, cfg)) := by
  refine ⟨fun _ => rfl, fun _ => rfl, ?_, ?_⟩
  · intro decrypt networks
    unfold ExportImportManager.importNetworkConfigs
    simp only [importLoop_spec]
    simp
  · intro decrypt id cfg p hp hne henc hdec
    unfold importEntry
    simp only [hp, hne, henc, hdec]
    simp

/-- Witness for C2's amended theorem: the entry list, count and result
fields at a concrete envelope, and the entry-preserving behaviour at a
concrete failing decryption. -/
theorem c2_import_partial_failure_amended_witness :
    ExportImportManager.importNetworkConfigs (fun _ => none)
      (some (some [("n1", ⟨"net", "client", some "AA==:AA==:AA==:AA==", 1, 0⟩)])) =
      ({ success := decide (0 < ([("n1",
          (⟨"net", "client", some "AA==:AA==:AA==:AA==", 1, 0⟩ : NetworkConfig))] :
            List (String × NetworkConfig)).length),
         imported := 1, errors := none },
       [importEntry (fun _ => none)
          ("n1", ⟨"net", "client", some "AA==:AA==:AA==:AA==", 1, 0⟩)]) ∧
    importEntry (fun _ => none)
      ("n1", ⟨"net", "client", some "AA==:AA==:AA==:AA==", 1, 0⟩) =
      ("n1", ⟨"net", "client", some "AA==:AA==:AA==:AA==", 1, 0⟩) :=
  ⟨c2_import_partial_failure_amended.2.2.1 (fun _ => none)
      [("n1", ⟨"net", "client", some "AA==:AA==:AA==:AA==", 1, 0⟩)],
   c2_import_partial_failure_amended.2.2.2 (fun _ => none) "n1"
      ⟨"net", "client", some "AA==:AA==:AA==:AA==", 1, 0⟩ "AA==:AA==:AA==:AA=="
      rfl (by decide) (by decide) rfl⟩

/-! ## `importWireGuardConfig` (`export-import.util.ts`)

The fields of the imported JSON `wireguard.config` object may each be
absent (`Option`), since nothing validates the parsed envelope.  JS
semantics at the use sites: `isEncrypted(undefined)` throws a TypeError
(`undefined.split`), `config.allowedIPs.join` throws when absent — both
land in the outer catch before anything is written — while a missing
field inside the template literal renders as the text `undefined`. -/

structure WGConfigJson where
  privateKey : Option String
  address : Option String
  publicKey : Option String
  endpoint : Option String
  allowedIPs : Option (List String)
  dns : Option String
  persistentKeepalive : Option Nat
  deriving DecidableEq, Repr

/-- `` `${x}` `` for a possibly-absent value. -/
def jsTemplate (o : Option String) : String :=
  match o with
  | some s => s
  | none => "undefined"

/-- JS `Array.prototype.join(sep)`. -/
def joinStrings (sep : String) : List String → String
  | [] => ""
  | [x] => x
  | x :: xs => x ++ sep ++ joinStrings sep xs

/-- The tunnel-config text block built by `importWireGuardConfig`. -/
def wgConfContent (pk : String) (c : WGConfigJson) (ips : List String) : String :=
  "[Interface]\nPrivateKey = " ++ pk ++
  "\nAddress = " ++ jsTemplate c.address ++ "\n" ++
  (match c.dns with
    | some d => if d = "" then "" else "DNS = " ++ d
    | none => "") ++
  "\n\n[Peer]\nPublicKey = " ++ jsTemplate c.publicKey ++
  "\nAllowedIPs = " ++ joinStrings ", " ips ++
  "\nEndpoint = " ++ jsTemplate c.endpoint ++
  "\nPersistentKeepalive = " ++
    toString (match c.persistentKeepalive with
      | some k => if k = 0 then 25 else k
      | none => 25)

structure WGImportResult where
  success : Bool
  errors : Option (List String)
  /-- The content written to `/etc/wireguard/<name>.conf`, when any. -/
  persisted : Option String
  deriving DecidableEq, Repr

/-- `ExportImportManager.importWireGuardConfig`.  `none` input stands for
an unreadable/unparsable file, `some none` for an envelope without
`wireguard.config`. -/
def ExportImportManager.importWireGuardConfig (decrypt : String → Option String)
    (input : Option (Option WGConfigJson)) : WGImportResult :=
  match input with
  | none =>
    ⟨false, some ["Failed to import WireGuard configuration"], none⟩
  | some none =>
    ⟨false, some ["Invalid export file format: WireGuard configuration missing"], none⟩
  | some (some config) =>
    match config.privateKey with
    | none =>
      ⟨false, some ["Failed to import WireGuard configuration"], none⟩
    | some pk0 =>
      let step : Option String :=
        if EncryptionUtil.isEncrypted pk0 then decrypt pk0 else some pk0
      match step with
      | none => ⟨false, some ["Failed to decrypt WireGuard private key"], none⟩
      | some pk =>
        match config.allowedIPs with
        | none =>
          ⟨false, some ["Failed to import WireGuard configuration"], none⟩
        | some ips =>
          ⟨true, none, some (wgConfContent pk config ips)⟩

/-- C6, counterexample to the claim as stated: a tunnel configuration
missing the mandatory `endpoint` imports *successfully* and persists a
config file whose endpoint line reads `Endpoint = undefined`. -/
theorem c6_counterexample :
    (ExportImportManager.importWireGuardConfig (fun _ => none)
      (some (some ⟨some "PKPK", some "10.0.0.2/24", some "PUB", none,
        some ["10.0.0.0/24"], none, none⟩))).success = true ∧
    (ExportImportManager.importWireGuardConfig (fun _ => none)
      (some (some ⟨some "PKPK", some "10.0.0.2/24", some "PUB", none,
        some ["10.0.0.0/24"], none, none⟩))).persisted ≠ none ∧
    jsIncludes ((ExportImportManager.importWireGuardConfig (fun _ => none)
      (some (some ⟨some "PKPK", some "10.0.0.2/24", some "PUB", none,
        some ["10.0.0.0/24"], none, none⟩))).persisted.getD "").data
      "Endpoint = undefined".data = true := by
  refine ⟨by decide, by decide, by decide⟩

/-- C6 (amended): importing a tunnel configuration missing the private
key or the allowed-IPs list fails with nothing persisted (the access
throws before any write), as does one whose private key looks encrypted
but fails to decrypt — in particular a block missing `PrivateKey` fails
with zero state persisted; but a missing address, public key or
endpoint goes undetected: the import succeeds and persists a config
containing the literal text `undefined` in those positions. -/
theorem c6_import_mandatory_fields_amended :
    (∀ (decrypt : String → Option String) (cfg : WGConfigJson),
      cfg.privateKey = none →
      ExportImportManager.importWireGuardConfig decrypt (some (some cfg)) =
        ⟨false, some ["Failed to import WireGuard configuration"], none⟩) ∧
    (∀ (decrypt : String → Option String) (cfg : WGConfigJson) (pk0 : String),
      cfg.privateKey = some pk0 → EncryptionUtil.isEncrypted pk0 = true →
      decrypt pk0 = none →
      ExportImportManager.importWireGuardConfig decrypt (some (some cfg)) =
        ⟨false, some ["Failed to decrypt WireGuard private key"], none⟩) ∧
    (∀ (decrypt : String → Option String) (cfg : WGConfigJson) (pk0 : String),
      cfg.privateKey = some pk0 → EncryptionUtil.isEncrypted pk0 = false →
      cfg.allowedIPs = none →
      ExportImportManager.importWireGuardConfig decrypt (some (some cfg)) =
        ⟨false, some ["Failed to import WireGuard configuration"], none⟩) ∧
    (∀ (decrypt : String → Option String) (cfg : WGConfigJson) (pk0 : String)
      (ips : List String),
      cfg.privateKey = some pk0 → EncryptionUtil.isEncrypted pk0 = false →
      cfg.allowedIPs = some ips →
      ExportImportManager.importWireGuardConfig decrypt (some (some cfg)) =
        ⟨true, none, some (wgConfContent pk0 cfg ips)⟩) := by
  refine ⟨?_, ?_, ?_, ?_⟩
  · intro decrypt cfg h
    simp only [ExportImportManager.importWireGuardConfig, h]
  · intro decrypt cfg pk0 h henc hdec
    simp only [ExportImportManager.importWireGuardConfig, h, henc, if_true, hdec]
  · intro decrypt cfg pk0 h henc hips
    simp only [ExportImportManager.importWireGuardConfig, h, henc,
      Bool.false_eq_true, if_false, hips]
  · intro decrypt cfg pk0 ips h henc hips
    simp only [ExportImportManager.importWireGuardConfig, h, henc,
      Bool.false_eq_true, if_false, hips]

/-- Witness for C6's amended theorem: a block missing `PrivateKey` fails
with zero state persisted. -/
theorem c6_import_mandatory_fields_amended_witness :
    ExportImportManager.importWireGuardConfig (fun _ => none)
      (some (some ⟨none, some "10.0.0.2/24", some "PUB", some "vpn.example.com:51820",
        some ["10.0.0.0/24"], none, none⟩)) =
      ⟨false, some ["Failed to import WireGuard configuration"], none⟩ :=
  c6_import_mandatory_fields_amended.1 (fun _ => none)
    ⟨none, some "10.0.0.2/24", some "PUB", some "vpn.example.com:51820",
      some ["10.0.0.0/24"], none, none⟩ rfl

/-! ## `WireGuardService.getStatus` (`wireguard.service.ts`) -/

/-- JS `s.split(sep)` for a multi-character separator, with fuel (the
source only calls it with the fixed separator `"received,"`). -/
def splitOnSubAux (sep : List Char) : Nat → List Char → List Char → List (List Char)
  | 0, s, acc => [acc.reverse ++ s]
  | _ + 1, [], acc => [acc.reverse]
  | fuel + 1, c :: rest, acc =>
    if sep.isPrefixOf (c :: rest) then
      acc.reverse :: splitOnSubAux sep fuel ((c :: rest).drop sep.length) []
    else splitOnSubAux sep fuel rest (c :: acc)

def splitOnSub (sep s : List Char) : List (List Char) :=
  splitOnSubAux sep (s.length + 1) s []

/-- JS `s.replace(sub, '')`: remove the first occurrence of `sub`. -/
def removeFirstSubAux (sub : List Char) : Nat → List Char → List Char
  | 0, s => s
  | fuel + 1, s =>
    if sub.isPrefixOf s then s.drop sub.length
    else
      match s with
      | [] => []
      | c :: rest => c :: removeFirstSubAux sub fuel rest

def jsReplaceRemove (s sub : List Char) : List Char :=
  removeFirstSubAux sub (s.length + 1) s

structure WireGuardStatus where
  active : Bool
  publicKey : Option String := none
  endpoint : Option String := none
  transferRx : Option String := none
  transferTx : Option String := none
  lastHandshake : Option String := none
  deriving DecidableEq, Repr

/-- One iteration of the `lines.forEach` in `getStatus`:
`const [key, value] = line.split(':').map(s => s.trim())` — so `value` is
only the text between the first and the second colon — then the switch
on `key`.  `none` models an exception thrown inside the callback
(`value.split`/`tx.replace` on `undefined`), which aborts `getStatus`
into its catch. -/
def processLine (line : List Char) (st : WireGuardStatus) : Option WireGuardStatus :=
  let parts := (splitOnChar ':' line).map jsTrim
  let key := parts.getD 0 []
  let value := parts[1]?
  if key = "public key".data then some { st with publicKey := value.map String.mk }
  else if key = "endpoint".data then some { st with endpoint := value.map String.mk }
  else if key = "transfer".data then
    match value with
    | none => none
    | some v =>
      match (splitOnSub "received,".data v).map jsTrim with
      | rx :: tx :: _ =>
        some { st with
          transferRx := some (String.mk (jsTrim (jsReplaceRemove rx "received".data)))
          transferTx := some (String.mk (jsTrim (jsReplaceRemove tx "sent".data))) }
      | _ => none
  else if key = "latest handshake".data then
    some { st with lastHandshake := value.map String.mk }
  else some st

def processLines : List (List Char) → WireGuardStatus → Option WireGuardStatus
  | [], st => some st
  | l :: rest, st =>
    match processLine l st with
    | some st2 => processLines rest st2
    | none => none

/-- `WireGuardService.getStatus`: `probe` is the trimmed stdout of
`sudo wg show wg0` (`none` when the command failed). -/
def WireGuardService.getStatus (probe : Option String) : WireGuardStatus :=
  match probe with
  | none => ⟨false, none, none, none, none, none⟩
  | some stdout =>
    if stdout = "" then ⟨false, none, none, none, none, none⟩
    else
      match processLines (splitOnChar '\n' stdout.data) ⟨true, none, none, none, none, none⟩ with
      | some st => st
      | none => ⟨false, none, none, none, none, none⟩

/-- C9, counterexample to the claim as stated: the endpoint line
`endpoint: 203.0.113.5:51820` is parsed into `endpoint = "203.0.113.5"` —
the port after the second colon is dropped, so the recognized key is not
captured with its full value. -/
theorem c9_counterexample :
    (WireGuardService.getStatus (some
      "interface: wg0\n  public key: AbCdEf=\n  endpoint: 203.0.113.5:51820\n  transfer: 1.19 MiB received, 2.58 MiB sent\n  latest handshake: 1 minute, 2 seconds ago")) =
      ⟨true, some "AbCdEf=", some "203.0.113.5", some "1.19 MiB", some "2.58 MiB",
        some "1 minute, 2 seconds ago"⟩ ∧
    (WireGuardService.getStatus (some
      "interface: wg0\n  public key: AbCdEf=\n  endpoint: 203.0.113.5:51820\n  transfer: 1.19 MiB received, 2.58 MiB sent\n  latest handshake: 1 minute, 2 seconds ago")).endpoint ≠
      some "203.0.113.5:51820" := by
  refine ⟨by decide, by decide⟩

/-- C9 (amended): `getStatus` returns `{active := false}` when the probe
fails or its output is empty; each line is split on `:` and only the
segment between the first and second colon (trimmed) is taken as the
value — so an endpoint's `host:port` loses its port — recognized keys
(public key, endpoint, transfer, latest handshake) set the corresponding
fields, and lines with an unrecognized key leave the status unchanged. -/
theorem c9_getStatus_amended :
    WireGuardService.getStatus none = ⟨false, none, none, none, none, none⟩ ∧
    WireGuardService.getStatus (some "") = ⟨false, none, none, none, none, none⟩ ∧
    (∀ (st : WireGuardStatus) (line key : List Char) (rest : List (List Char)),
      (splitOnChar ':' line).map jsTrim = key :: rest →
      key ≠ "public key".data → key ≠ "endpoint".data → key ≠ "transfer".data →
      key ≠ "latest handshake".data →
      processLine line st = some st) ∧
    (∀ (st : WireGuardStatus) (line value : List Char) (rest : List (List Char)),
      (splitOnChar ':' line).map jsTrim = "endpoint".data :: value :: rest →
      processLine line st = some { st with endpoint := some (String.mk value) }) ∧
    (∀ (st : WireGuardStatus) (line value : List Char) (rest : List (List Char)),
      (splitOnChar ':' line).map jsTrim = "public key".data :: value :: rest →
      processLine line st = some { st with publicKey := some (String.mk value) }) ∧
    (∀ (st : WireGuardStatus) (line value : List Char) (rest : List (List Char)),
      (splitOnChar ':' line).map jsTrim = "latest handshake".data :: value :: rest →
      processLine line st = some { st with lastHandshake := some (String.mk value) }) ∧
    (∀ (st : WireGuardStatus) (line value rx tx : List Char)
      (rest : List (List Char)) (more : List (List Char)),
      (splitOnChar ':' line).map jsTrim = "transfer".data :: value :: rest →
      (splitOnSub "received,".data value).map jsTrim = rx :: tx :: more →
      processLine line st = some { st with
        transferRx := some (String.mk (jsTrim (jsReplaceRemove rx "received".data)))
        transferTx := some (String.mk (jsTrim (jsReplaceRemove tx "sent".data))) }) := by
  refine ⟨rfl, rfl, ?_, ?_, ?_, ?_, ?_⟩
  · intro st line key rest hsplit h1 h2 h3 h4
    unfold processLine
    rw [hsplit]
    cases rest with
    | nil => simp [h1, h2, h3, h4]
    | cons v more => simp [h1, h2, h3, h4]
  · intro st line value rest hsplit
    unfold processLine
    rw [hsplit]
    simp
  · intro st line value rest hsplit
    unfold processLine
    rw [hsplit]
    simp
  · intro st line value rest hsplit
    unfold processLine
    rw [hsplit]
    simp
  · intro st line value rx tx rest more hsplit hval
    unfold processLine
    rw [hsplit]
    simp [hval]

/-- Witness for C9's amended theorem: a concrete endpoint line carrying a
port is parsed, and only the host part lands in the status. -/
theorem c9_getStatus_amended_witness :
    processLine "  endpoint: 203.0.113.5:51820".data ⟨true, none, none, none, none, none⟩ =
      some { (⟨true, none, none, none, none, none⟩ : WireGuardStatus) with
        endpoint := some (String.mk "203.0.113.5".data) } :=
  c9_getStatus_amended.2.2.2.1 ⟨true, none, none, none, none, none⟩
    "  endpoint: 203.0.113.5:51820".data "203.0.113.5".data ["51820".data] (by decide)

/-! ## `NetworkControl.getStatus` (network-control service)

External probes enter as parameters: `devStatus` is the trimmed stdout
of `nmcli device status` (`none` when the command failed), `wifiDetails`
that of the detailed wireless scan, and `hwaddr`, `ipLink`, `ipConfig`
the per-argument lookups (each `none` when the command failed). -/

structure UnifiedStatus where
  connected : Bool
  ssid : Option String := none
  mode : String
  signal : Option Nat := none
  freq : Option String := none
  bitrate : Option String := none
  security : Option (List String) := none
  ipAddress : Option String := none
  gateway : Option String := none
  macAddress : Option String := none
  interfaceName : Option String := none
  deriving DecidableEq, Repr

def isHexDigit (c : Char) : Bool :=
  c.isDigit || ('a' ≤ c && c ≤ 'f') || ('A' ≤ c && c ≤ 'F')

/-- A match of `/([0-9a-f]{2}:){5}[0-9a-f]{2}/i` at the head of `s`. -/
def matchMacPrefix (s : List Char) : Option (List Char) :=
  match s with
  | a :: b :: ':' :: c :: d :: ':' :: e :: f :: ':' :: g :: h :: ':' :: i :: j :: ':' :: k :: l :: _ =>
    if [a, b, c, d, e, f, g, h, i, j, k, l].all isHexDigit then
      some [a, b, ':', c, d, ':', e, f, ':', g, h, ':', i, j, ':', k, l]
    else none
  | _ => none

/-- JS `s.match(/([0-9a-f]{2}:){5}[0-9a-f]{2}/i)`: first match anywhere. -/
def findMac : List Char → Option (List Char)
  | [] => none
  | c :: rest =>
    match matchMacPrefix (c :: rest) with
    | some m => some m
    | none => findMac rest

/-- JS `s.split(/\s{2,}/)`: split at each maximal run of two or more
whitespace characters (single ones stay inside tokens); fuelled. -/
def splitWs2Aux : Nat → List Char → List Char → List (List Char)
  | 0, s, acc => [acc.reverse ++ s]
  | _ + 1, [], acc => [acc.reverse]
  | fuel + 1, c :: rest, acc =>
    if isJsWs c then
      match rest with
      | c2 :: _ =>
        if isJsWs c2 then acc.reverse :: splitWs2Aux fuel ((c :: rest).dropWhile isJsWs) []
        else splitWs2Aux fuel rest (c :: acc)
      | [] => splitWs2Aux fuel rest (c :: acc)
    else splitWs2Aux fuel rest (c :: acc)

def splitWs2 (s : List Char) : List (List Char) :=
  splitWs2Aux (s.length + 1) s []

/-- JS `s.replace(/\\:/g, ':')` as used on nmcli terse output. -/
def unescapeColons : List Char → List Char
  | [] => []
  | '\\' :: ':' :: rest => ':' :: unescapeColons rest
  | c :: rest => c :: unescapeColons rest

/-- JS `s.split(/\s+/).filter(s => s)`: the whitespace-separated words. -/
def wordsOf : List Char → List (List Char) :=
  go []
where
  go (acc : List Char) : List Char → List (List Char)
    | [] => if acc = [] then [] else [acc.reverse]
    | c :: rest =>
      if isJsWs c then
        if acc = [] then go [] rest else acc.reverse :: go [] rest
      else go (c :: acc) rest

/-- `NetworkControl.getStatus` from the network-control service (the
variant with the wired fallback).  Of note for C8: when no line of the
device table starts with `wlan0`/`wifi`, the wired check accepts any
`eth0`/`ethernet` line whose text merely *contains* `"connected"`. -/
def NetworkControl.getStatus (devStatus wifiDetails : Option String)
    (hwaddr ipLink ipConfig : String → Option String) : UnifiedStatus :=
  match devStatus with
  | none => { connected := false, mode := "unknown" }
  | some dev =>
    let lines := splitOnChar '\n' dev.data
    match lines.find? (fun l => "wlan0".data.isPrefixOf l || "wifi".data.isPrefixOf l) with
    | none =>
      match lines.find? (fun l =>
          ("eth0".data.isPrefixOf l || "ethernet".data.isPrefixOf l)
            && jsIncludes l "connected".data) with
      | some ethLine =>
        let ethParts := splitWs2 (jsTrim ethLine)
        let iface := String.mk (ethParts.getD 0 [])
        let connName := if 3 < ethParts.length
          then String.mk (joinWith ' ' (ethParts.drop 3))
          else "Ethernet Connection"
        let macStep : Option (Option String) :=
          match hwaddr iface with
          | some m => some (some (String.mk (jsTrim m.data)))
          | none =>
            match ipLink iface with
            | some out => some ((findMac out.data).map String.mk)
            | none => none
        match macStep with
        | none =>
          { connected := true, ssid := some connName, mode := "ethernet",
            interfaceName := some iface }
        | some mac =>
          match ipConfig connName with
          | none =>
            { connected := true, ssid := some connName, mode := "ethernet",
              interfaceName := some iface }
          | some out =>
            let ls := splitOnChar '\n' out.data
            let ipAddress := match ls.getD 0 [] with
              | [] => none
              | l => some (String.mk ((splitOnChar '/' l).getD 0 []))
            let gateway := match ls[1]? with
              | none => none
              | some [] => none
              | some l => some (String.mk ((splitOnChar '/' l).getD 0 []))
            { connected := true, ssid := some connName, mode := "ethernet",
              ipAddress := ipAddress, gateway := gateway, macAddress := mac,
              interfaceName := some iface }
      | none => { connected := false, mode := "disconnected" }
    | some wifiLine =>
      let devParts := splitWs2 (jsTrim wifiLine)
      let iface := String.mk (devParts.getD 0 [])
      let ty := String.mk (devParts.getD 1 [])
      let state := String.mk (devParts.getD 2 [])
      let connName : Option String := if 3 < devParts.length
        then some (String.mk (joinWith ' ' (devParts.drop 3))) else none
      let isConn := state = "connected" &&
        (match connName with | some n => !(n = "") && !(n = "--") | none => false)
      match connName with
      | none =>
        { connected := false,
          mode := if ty = "wifi" then "disconnected" else ty,
          interfaceName := some iface }
      | some name =>
        if ¬ isConn then
          { connected := false, mode := if ty = "wifi" then "disconnected" else ty,
            interfaceName := some iface }
        else
          let details : Option Nat × Option String × Option String × Option (List String) :=
            match wifiDetails with
            | none => (none, none, none, none)
            | some out =>
              match (splitOnChar '\n' out.data).find? (fun l => "yes:".data.isPrefixOf l) with
              | none => (none, none, none, none)
              | some l =>
                let parts := splitOnChar ':' l
                let signal := parseDec (parts.getD 2 [])
                match parts[3]? with
                | none => (signal, none, none, none)
                | some p3 =>
                  (signal, some (String.mk (unescapeColons p3)),
                   (parts[4]?).map String.mk,
                   some (match parts[5]? with
                     | some p5 => (wordsOf (jsTrim p5)).map String.mk
                     | none => []))
          let mac : Option String :=
            match hwaddr iface with
            | some m => some (String.mk (jsTrim m.data))
            | none =>
              match ipLink iface with
              | some out => (findMac out.data).map String.mk
              | none => none
          let ipgw : Option String × Option String :=
            match ipConfig name with
            | none => (none, none)
            | some out =>
              let ls := splitOnChar '\n' out.data
              (match ls.getD 0 [] with
                | [] => none
                | l => some (String.mk ((splitOnChar '/' l).getD 0 [])),
               match ls[1]? with
                | none => none
                | some [] => none
                | some l => some (String.mk ((splitOnChar '/' l).getD 0 [])))
          { connected := true, ssid := some (String.mk (unescapeColons name.data)),
            mode := "wifi", signal := details.1, freq := details.2.1,
            bitrate := details.2.2.1, security := details.2.2.2,
            ipAddress := ipgw.1, gateway := ipgw.2, macAddress := mac,
            interfaceName := some iface }

/-- C8: behaviour of the aggregator on device tables without a wireless
line.  (i) A genuinely connected wired line yields a connected status
with mode `ethernet`, ip/gateway populated and every wireless-only field
absent; (ii) with no eth line at all it short-circuits to
`{connected := false, mode := "disconnected"}`; (iii) **the divergence**:
a wired line in state `disconnected` also satisfies the code's substring
check `line.includes('connected')`, so the aggregator reports a
connected ethernet status where the claim requires
`{connected:false, mode:"disconnected"}`. -/
theorem c8_getStatus_wired_paths :
    NetworkControl.getStatus
      (some "DEVICE          TYPE      STATE         CONNECTION\neth0            ethernet  connected     Wired connection 1\nlo              loopback  unmanaged     --")
      none (fun _ => some "AA:BB:CC:DD:EE:FF") (fun _ => none)
      (fun n => if n = "Wired connection 1" then some "192.168.1.10/24\n192.168.1.1" else none) =
      { connected := true, ssid := some "Wired connection 1", mode := "ethernet",
        signal := none, freq := none, bitrate := none, security := none,
        ipAddress := some "192.168.1.10", gateway := some "192.168.1.1",
        macAddress := some "AA:BB:CC:DD:EE:FF", interfaceName := some "eth0" } ∧
    NetworkControl.getStatus
      (some "DEVICE          TYPE      STATE         CONNECTION\nlo              loopback  unmanaged     --")
      none (fun _ => none) (fun _ => none) (fun _ => none) =
      { connected := false, mode := "disconnected" } ∧
    NetworkControl.getStatus
      (some "DEVICE          TYPE      STATE         CONNECTION\neth0            ethernet  disconnected  --\nlo              loopback  unmanaged     --")
      none (fun _ => some "AA:BB:CC:DD:EE:FF") (fun _ => none)
      (fun n => if n = "--" then some "10.0.0.5/24\n10.0.0.1" else none) =
      { connected := true, ssid := some "--", mode := "ethernet",
        signal := none, freq := none, bitrate := none, security := none,
        ipAddress := some "10.0.0.5", gateway := some "10.0.0.1",
        macAddress := some "AA:BB:CC:DD:EE:FF", interfaceName := some "eth0" } ∧
    (NetworkControl.getStatus
      (some "DEVICE          TYPE      STATE         CONNECTION\neth0            ethernet  disconnected  --\nlo              loopback  unmanaged     --")
      none (fun _ => some "AA:BB:CC:DD:EE:FF") (fun _ => none)
      (fun n => if n = "--" then some "10.0.0.5/24\n10.0.0.1" else none)).connected ≠ false := by
  refine ⟨by decide, by decide, by decide, by decide⟩
